import Mathlib

/-!
Shallow embedding of the slot/prediction scheduling and evaluation engine of
the trend-fiver platform (files `server/slot-service.ts` and
`server/prediction-service.ts`, plus the admin evaluation route).

Conventions of the embedding:
* machine numbers are `Nat`/`Int`; asset prices are `ℚ` (the scoring
  arithmetic of the source is exact on the inputs considered);
* timestamps are milliseconds (`Int`), either absolute (epoch) or relative to
  a period start, as stated at each definition;
* a JavaScript value that can be `null`/`undefined`/falsy is an `Option`;
  a price of `0` is falsy in the source's `||` chains, which `truthyPrice`
  reproduces;
* the database is a record of lists of rows, and the fallible service
  functions return `Except String`, carrying the source's error messages.
-/

namespace TrendFiver

/-- The ten supported duration keys (`DurationKey` in `slot-service.ts`). -/
inductive DurationKey
  | d1h | d3h | d6h | d24h | d48h | d1w | d1m | d3m | d6m | d1y
deriving DecidableEq, Repr

/-- One entry of the static catalog `SLOT_CONFIGURATIONS`. -/
structure SlotConfig where
  intervals : Nat
  intervalDuration : Nat
  points : List Nat
deriving DecidableEq, Repr

/-- The static duration catalog `SLOT_CONFIGURATIONS` of `slot-service.ts`. -/
def SLOT_CONFIGURATIONS : DurationKey → SlotConfig
  | .d1h => ⟨4, 15, [10, 5, 2, 1]⟩
  | .d3h => ⟨6, 30, [20, 15, 10, 5, 2, 1]⟩
  | .d6h => ⟨6, 60, [30, 20, 15, 10, 5, 1]⟩
  | .d24h => ⟨8, 180, [40, 30, 20, 15, 10, 5, 2, 1]⟩
  | .d48h => ⟨8, 360, [50, 40, 30, 20, 15, 10, 5, 1]⟩
  | .d1w => ⟨7, 1440, [60, 50, 40, 30, 20, 10, 5]⟩
  | .d1m => ⟨4, 10080, [80, 60, 40, 20]⟩
  | .d3m => ⟨3, 43200, [100, 60, 30]⟩
  | .d6m => ⟨6, 43200, [120, 100, 80, 60, 40, 20]⟩
  | .d1y => ⟨4, 129600, [150, 100, 50, 20]⟩

/-- Embedding of `getPointsForSlot` (`slot-service.ts:266-272`): `0` for an
out-of-range slot number, otherwise `config.points[slotNumber - 1]`. -/
def getPointsForSlot (duration : DurationKey) (slotNumber : Nat) : Nat :=
  let config := SLOT_CONFIGURATIONS duration
  if slotNumber < 1 ∨ slotNumber > config.points.length then 0
  else config.points.getD (slotNumber - 1) 0

/-- Prediction direction (`'up' | 'down'`). -/
inductive Direction
  | up | down
deriving DecidableEq, Repr

/-- Correctness rule of `evaluatePrediction`
(`prediction-service.ts:372-377`): strictly greater for `up`, strictly
smaller for `down`; equality is incorrect either way. -/
def isCorrectFor (direction : Direction) (startPrice endPrice : ℚ) : Bool :=
  match direction with
  | .up => decide (endPrice > startPrice)
  | .down => decide (endPrice < startPrice)

/-- The quantity `Math.abs((endPrice - startPrice) / startPriceNum * 100)` of
`prediction-service.ts:387`. -/
def priceChangePercent (startPrice endPrice : ℚ) : ℚ :=
  |(endPrice - startPrice) / startPrice * 100|

/-- The accuracy-bonus ladder of `prediction-service.ts:389-401`. -/
def accuracyBonus (priceChangePct : ℚ) : Int :=
  if priceChangePct ≤ 1/10 then 10
  else if priceChangePct ≤ 1/2 then 5
  else if priceChangePct ≤ 1 then 2
  else 0

/-- Points awarded by `evaluatePrediction` (`prediction-service.ts:380-405`):
base points plus accuracy bonus when correct, `-Math.max(1,
Math.floor(basePoints / 2))` when incorrect. -/
def computePointsAwarded (basePoints : Nat) (correct : Bool)
    (startPrice endPrice : ℚ) : Int :=
  if correct then
    (basePoints : Int) + accuracyBonus (priceChangePercent startPrice endPrice)
  else
    -((max 1 (basePoints / 2) : Nat) : Int)

/-- Slot-number computation of `getSlotForDate` (`slot-service.ts:228-230`)
as a function of the (possibly fractional) minutes elapsed since the
duration's period start:
`Math.min(Math.max(Math.floor(minutes / intervalDuration) + 1, 1), intervals)`. -/
def slotNumberFromMinutes (duration : DurationKey) (minutesSinceStart : ℚ) : Int :=
  let config := SLOT_CONFIGURATIONS duration
  let slotIndex : Int := ⌊minutesSinceStart / (config.intervalDuration : ℚ)⌋
  min (max (slotIndex + 1) 1) (config.intervals : Int)

/-- Slot start offset in milliseconds from the anchor for the MINUTE-BASED
branches of `getSlotTimes` (`slot-service.ts:349-429`: durations
`1h`/`3h`/`6h`/`24h`/`48h`/`1w`/`1m`), matching the inverse computation in
`getSlotForDate` (`slot-service.ts:233-237`):
`start = periodStart + (slotNumber - 1) * slotLength`.  The calendar-month
branches for `3m`/`6m`/`1y` are modelled separately by
`getSlotTimesStartMs`. -/
def slotStartOffsetMs (duration : DurationKey) (slotNumber : Nat) : Int :=
  ((slotNumber : Int) - 1) * ((SLOT_CONFIGURATIONS duration).intervalDuration : Int) * 60000

/-- Slot end offset in milliseconds for the minute-based branches of
`getSlotTimes` (`slot-service.ts:349-429`), which set the end to the last
millisecond before the next slot:
`end = periodStart + slotNumber * slotLength - 1ms`. -/
def slotEndOffsetMs (duration : DurationKey) (slotNumber : Nat) : Int :=
  (slotNumber : Int) * ((SLOT_CONFIGURATIONS duration).intervalDuration : Int) * 60000 - 1

/-- Membership of an anchor-relative millisecond instant in a minute-based
slot's `[start, end]` interval. -/
def msInSlot (duration : DurationKey) (slotNumber : Nat) (t : Int) : Prop :=
  slotStartOffsetMs duration slotNumber ≤ t ∧ t ≤ slotEndOffsetMs duration slotNumber

/-- The durations whose `getSlotTimes` branch builds boundaries from
calendar months (`slot-service.ts:430-448`) instead of fixed minute
offsets. -/
def usesCalendarMonths : DurationKey → Bool
  | .d3m | .d6m | .d1y => true
  | _ => false

/-- Day lengths of the calendar months 0-11 (January-December) used by the
JS `Date` arithmetic of `getSlotTimes`; February's length is a parameter
(28, or 29 in a leap year). -/
def monthLengthDays (febDays : Nat) : Nat → Nat
  | 0 => 31
  | 1 => febDays
  | 2 => 31
  | 3 => 30
  | 4 => 31
  | 5 => 30
  | 6 => 31
  | 7 => 31
  | 8 => 30
  | 9 => 31
  | 10 => 30
  | _ => 31

/-- Days from January 1 to the first day of month `m` — the
`new Date(year, m, 1)` anchor `getSlotTimes` uses for `3m`/`6m`/`1y`. -/
def monthStartOffsetDays (febDays : Nat) : Nat → Nat
  | 0 => 0
  | m + 1 => monthStartOffsetDays febDays m + monthLengthDays febDays m

/-- The number of calendar months the slots of a calendar-based duration
span in `getSlotTimes`: months 1..3 of the year for `3m`, 1..6 for `6m`,
the four quarters (12 months) for `1y`. -/
def monthsSpanned : DurationKey → Nat
  | .d3m => 3
  | .d6m => 6
  | .d1y => 12
  | _ => 0

/-- Slot start offset in ms from the duration's anchor, embedding the full
branch structure of `getSlotTimes` (`slot-service.ts:341-452`): fixed
minute offsets for the minute-based durations, and calendar-month starts —
`new Date(year, slotNumber - 1, 1)` for `3m`/`6m`,
`new Date(year, (slotNumber - 1) * 3, 1)` for `1y` — anchored at January 1
of the current year.  DST shifts within the local calendar are not
modelled. -/
def getSlotTimesStartMs (duration : DurationKey) (febDays slotNumber : Nat) : Int :=
  match duration with
  | .d3m | .d6m =>
      (monthStartOffsetDays febDays (slotNumber - 1) : Int) * 86400000
  | .d1y =>
      (monthStartOffsetDays febDays (3 * (slotNumber - 1)) : Int) * 86400000
  | _ => slotStartOffsetMs duration slotNumber

/-- Slot end offset in ms per `getSlotTimes`: one millisecond before the
start of the following month/quarter for `3m`/`6m`/`1y`
(`end.setMonth(end.getMonth() + k); end.setMilliseconds(-1)`), and the
minute-based `slotNumber * slotLength - 1ms` for the other durations. -/
def getSlotTimesEndMs (duration : DurationKey) (febDays slotNumber : Nat) : Int :=
  match duration with
  | .d3m | .d6m =>
      (monthStartOffsetDays febDays slotNumber : Int) * 86400000 - 1
  | .d1y =>
      (monthStartOffsetDays febDays (3 * slotNumber) : Int) * 86400000 - 1
  | _ => slotEndOffsetMs duration slotNumber

/-- Membership of an anchor-relative millisecond instant in a
`getSlotTimes` slot's `[start, end]` interval. -/
def msInSlotTimes (duration : DurationKey) (febDays slotNumber : Nat) (t : Int) : Prop :=
  getSlotTimesStartMs duration febDays slotNumber ≤ t ∧
    t ≤ getSlotTimesEndMs duration febDays slotNumber

/-- Prediction status (`'active' | 'expired' | 'evaluated'` in the schema;
nothing in the service layer ever writes `expired`). -/
inductive PredictionStatus
  | active | expired | evaluated
deriving DecidableEq, Repr

/-- Prediction result (`'pending' | 'correct' | 'incorrect'`). -/
inductive PredictionResult
  | pending | correct | incorrect
deriving DecidableEq, Repr

/-- A row of the `predictions` table, with the columns the engine touches. -/
structure Prediction where
  id : Nat
  userId : Nat
  assetId : Nat
  direction : Direction
  duration : DurationKey
  slotNumber : Nat
  slotStart : Int
  slotEnd : Int
  timestampExpiration : Int
  status : PredictionStatus
  result : PredictionResult
  pointsAwarded : Option Int
  priceStart : Option ℚ
  priceEnd : Option ℚ
  evaluatedAt : Option Int
deriving DecidableEq, Repr

/-- A row of the `users` table (only the fields `createPrediction` reads). -/
structure UserRow where
  id : Nat
  emailVerified : Bool
deriving DecidableEq, Repr

/-- A row of the `assets` table (only the fields the engine reads). -/
structure AssetRow where
  id : Nat
  symbol : String
  isActive : Bool
deriving DecidableEq, Repr

/-- A row of the `userProfiles` aggregate table. -/
structure UserProfileRow where
  userId : Nat
  totalPredictions : Int
  correctPredictions : Int
  monthlyScore : Int
  totalScore : Int
deriving DecidableEq, Repr

/-- The persisted state the engine reads and writes. -/
structure Database where
  users : List UserRow
  assets : List AssetRow
  predictions : List Prediction
  userProfiles : List UserProfileRow
deriving DecidableEq, Repr

/-- Input of `createPrediction` (`CreatePredictionInput`). -/
structure CreatePredictionInput where
  userId : Nat
  assetSymbol : String
  direction : Direction
  duration : DurationKey
deriving DecidableEq, Repr

/-- The clock-dependent values `createPrediction` obtains from the slot
service for the current instant: the active slot from
`getCurrentActiveSlot`, the verdicts of `isSlotValid` and
`isWithinActiveSlot`. -/
structure SlotEnv where
  slotNumber : Nat
  startMs : Int
  endMs : Int
  slotIsValid : Bool
  withinActiveSlot : Bool
deriving DecidableEq, Repr

/-- JavaScript truthiness filter for an optional price: `null`/`undefined`
and the falsy number `0` both fail the source's `if (!price)` tests. -/
def truthyPrice (price : Option ℚ) : Option ℚ :=
  price.bind (fun v => if v = 0 then none else some v)

/-- The price obtained by the `livePrice || cached` fallback chain of
`prediction-service.ts:104-118` and `346-361`: the live quote when truthy,
else the cached quote when truthy, else nothing. -/
def firstTruthyPrice (livePrice cachedPrice : Option ℚ) : Option ℚ :=
  (truthyPrice livePrice).orElse (fun _ => truthyPrice cachedPrice)

/-- The duplicate check of `prediction-service.ts:84-92`: an existing row
with the same `(userId, assetId, duration, slotNumber, slotStart)`. -/
def matchesSlotKey (p : Prediction) (userId assetId : Nat)
    (duration : DurationKey) (slotNumber : Nat) (slotStart : Int) : Bool :=
  p.userId == userId && p.assetId == assetId && p.duration == duration &&
    p.slotNumber == slotNumber && p.slotStart == slotStart

/-- The `totalPredictions` bump of `prediction-service.ts:136-166`: create a
profile with count 1 when absent, otherwise increment the existing row. -/
def bumpTotalPredictions (db : Database) (userId : Nat) : Database :=
  match db.userProfiles.find? (fun pr => pr.userId == userId) with
  | none =>
      { db with userProfiles := db.userProfiles ++
          [{ userId := userId, totalPredictions := 1, correctPredictions := 0,
             monthlyScore := 0, totalScore := 0 }] }
  | some _ =>
      { db with userProfiles := db.userProfiles.map (fun pr =>
          if pr.userId == userId then
            { pr with totalPredictions := pr.totalPredictions + 1 }
          else pr) }

/-- Embedding of `createPrediction` (`prediction-service.ts:45-169`).  The
checks run in source order: user exists and is verified, asset exists and is
active, the current slot is valid, no duplicate for the idempotency tuple,
the instant is within the active slot, and a truthy price is obtainable.
`newId` stands for the id the insert returns. -/
def createPrediction (db : Database) (input : CreatePredictionInput)
    (env : SlotEnv) (livePrice cachedPrice : Option ℚ) (newId : Nat) :
    Except String (Database × Prediction) :=
  match db.users.find? (fun u => u.id == input.userId) with
  | none => .error "User not found"
  | some user =>
    if !user.emailVerified then
      .error "Email verification required. Please verify your email before making predictions."
    else match db.assets.find? (fun a => a.symbol == input.assetSymbol) with
      | none => .error "Asset not found"
      | some asset =>
        if !asset.isActive then
          .error "Asset is not available for predictions"
        else if !env.slotIsValid then
          .error "Current slot is not valid for predictions - only current and future slots are allowed"
        else if (db.predictions.find? (fun p =>
            matchesSlotKey p input.userId asset.id input.duration
              env.slotNumber env.startMs)).isSome then
          .error "You already have a prediction for this asset in the current slot"
        else if !env.withinActiveSlot then
          .error "No active slot available for this duration"
        else match firstTruthyPrice livePrice cachedPrice with
          | none => .error "Unable to get current asset price"
          | some currentPrice =>
            let newPrediction : Prediction :=
              { id := newId
                userId := input.userId
                assetId := asset.id
                direction := input.direction
                duration := input.duration
                slotNumber := env.slotNumber
                slotStart := env.startMs
                slotEnd := env.endMs
                timestampExpiration := env.endMs
                status := PredictionStatus.active
                result := PredictionResult.pending
                pointsAwarded := none
                priceStart := some currentPrice
                priceEnd := none
                evaluatedAt := none }
            let db1 := { db with predictions := db.predictions ++ [newPrediction] }
            .ok (bumpTotalPredictions db1 input.userId, newPrediction)

/-- The lock-window constant `LOCK_BEFORE_START_MINUTES`
(`slot-service.ts:175`). -/
def LOCK_BEFORE_START_MINUTES : Int := 5

/-- Embedding of `isSlotLocked` (`slot-service.ts:700-707`) as a function of
the slot's absolute start time and the current instant, both in epoch ms:
locked once `slotStart - now ≤ 5 minutes`. -/
def isSlotLockedAt (slotStartTimeMs nowMs : Int) : Bool :=
  decide (slotStartTimeMs - nowMs ≤ LOCK_BEFORE_START_MINUTES * 60 * 1000)

/-- The value `evaluatePrediction` returns on success
(`prediction-service.ts:443-449`). -/
structure EvaluationOutcome where
  predictionId : Nat
  isCorrect : Bool
  pointsAwarded : Int
  startPrice : ℚ
  endPrice : ℚ
deriving DecidableEq, Repr

/-- The column update of `prediction-service.ts:412-420`: status, result,
points, end price and evaluation time; everything else is untouched. -/
def applyEvaluation (p : Prediction) (isCorrect : Bool) (pointsAwarded : Int)
    (endPrice : ℚ) (nowMs : Int) : Prediction :=
  { p with status := PredictionStatus.evaluated
           result := if isCorrect then PredictionResult.correct
                     else PredictionResult.incorrect
           pointsAwarded := some pointsAwarded
           priceEnd := some endPrice
           evaluatedAt := some nowMs }

/-- The aggregate update of `prediction-service.ts:422-441`: read the
profile, and when present write back totals computed from the row read;
when absent, do nothing. -/
def applyProfileDelta (profiles : List UserProfileRow) (userId : Nat)
    (isCorrect : Bool) (pointsAwarded : Int) : List UserProfileRow :=
  match profiles.find? (fun pr => pr.userId == userId) with
  | none => profiles
  | some profile => profiles.map (fun pr =>
      if pr.userId == userId then
        { pr with
            correctPredictions :=
              profile.correctPredictions + (if isCorrect then 1 else 0)
            totalPredictions := profile.totalPredictions + 1
            monthlyScore := profile.monthlyScore + pointsAwarded
            totalScore := profile.totalScore + pointsAwarded }
      else pr)

/-- Embedding of `evaluatePrediction` (`prediction-service.ts:324-450`), in
source order: find the prediction, require status `active`, find the asset,
obtain a truthy settlement price with the live-then-cached fallback, require
a stored start price, compute correctness and points, write the prediction
update, and apply the aggregate delta when a profile row exists. -/
def evaluatePrediction (db : Database) (predictionId : Nat)
    (livePrice cachedPrice : Option ℚ) (nowMs : Int) :
    Except String (Database × EvaluationOutcome) :=
  match db.predictions.find? (fun p => p.id == predictionId) with
  | none => .error "Prediction not found"
  | some prediction =>
    if prediction.status ≠ PredictionStatus.active then
      .error "Prediction is not active"
    else match db.assets.find? (fun a => a.id == prediction.assetId) with
      | none => .error "Asset not found"
      | some _asset =>
        match firstTruthyPrice livePrice cachedPrice with
        | none => .error "Unable to get end price for evaluation"
        | some endPrice =>
          match prediction.priceStart with
          | none => .error "Start price not available for evaluation"
          | some startPrice =>
            let isCorrect := isCorrectFor prediction.direction startPrice endPrice
            let basePoints := getPointsForSlot prediction.duration prediction.slotNumber
            let pointsAwarded := computePointsAwarded basePoints isCorrect startPrice endPrice
            .ok ({ db with
                    predictions := db.predictions.map (fun p =>
                      if p.id == predictionId then
                        applyEvaluation p isCorrect pointsAwarded endPrice nowMs
                      else p)
                    userProfiles := applyProfileDelta db.userProfiles
                      prediction.userId isCorrect pointsAwarded },
                 { predictionId := predictionId
                   isCorrect := isCorrect
                   pointsAwarded := pointsAwarded
                   startPrice := startPrice
                   endPrice := endPrice })

/-- Body of the manual admin evaluation request
(`POST /admin/predictions/:id/evaluate`); `result` is already one of the
three validated tokens, the other fields are optional in the body. -/
structure AdminEvaluateInput where
  result : PredictionResult
  pointsAwarded : Option Int
  priceStart : Option ℚ
  priceEnd : Option ℚ
deriving DecidableEq, Repr

/-- Embedding of the admin evaluation route: find the prediction (404 when
absent), unconditionally set status `evaluated`, `result`,
`pointsAwarded || 0`, `evaluatedAt`, and overwrite `priceStart`/`priceEnd`
with the supplied values when truthy (keeping the stored ones otherwise);
then, when a points value was supplied and differs from the stored one,
apply the score difference to the owner's profile row. -/
def adminEvaluatePrediction (db : Database) (predictionId : Nat)
    (input : AdminEvaluateInput) (nowMs : Int) : Except String Database :=
  match db.predictions.find? (fun p => p.id == predictionId) with
  | none => .error "Prediction not found"
  | some pred =>
    let newPredictions := db.predictions.map (fun p =>
      if p.id == predictionId then
        { p with status := PredictionStatus.evaluated
                 result := input.result
                 pointsAwarded := some (input.pointsAwarded.getD 0)
                 priceStart := (truthyPrice input.priceStart).elim pred.priceStart some
                 priceEnd := (truthyPrice input.priceEnd).elim pred.priceEnd some
                 evaluatedAt := some nowMs }
      else p)
    let newProfiles :=
      if input.pointsAwarded.isSome ∧ input.pointsAwarded ≠ pred.pointsAwarded then
        let pointsDiff := input.pointsAwarded.getD 0 - pred.pointsAwarded.getD 0
        db.userProfiles.map (fun pr =>
          if pr.userId == pred.userId then
            { pr with
                monthlyScore := pr.monthlyScore + pointsDiff
                totalScore := pr.totalScore + pointsDiff
                totalPredictions := pr.totalPredictions + 1
                correctPredictions := pr.correctPredictions +
                  (if input.result = PredictionResult.correct then 1 else 0) }
          else pr)
      else db.userProfiles
    .ok { db with predictions := newPredictions, userProfiles := newProfiles }

/-- Embedding of `getCurrentSlot` (`slot-service.ts:323-338`), which anchors
`startOfDay` with `new Date(now.getFullYear(), now.getMonth(),
now.getDate())` — the SERVER-LOCAL calendar day.  `epochMs` is the absolute
instant and `localOffsetMs` the server timezone's UTC offset, so the
milliseconds since the server-local midnight are `(epochMs + localOffsetMs)
mod 86400000`. -/
def getCurrentSlotLocal (duration : DurationKey) (epochMs localOffsetMs : Int) : Int :=
  let config := SLOT_CONFIGURATIONS duration
  let slotDurationMs := (config.intervalDuration : Int) * 60 * 1000
  let timeSinceStartOfDay := (epochMs + localOffsetMs) % 86400000
  let slotNumber := timeSinceStartOfDay / slotDurationMs + 1
  min slotNumber (config.intervals : Int)

/-- The complete set of error messages `createPrediction` can throw
(`prediction-service.ts:45-133`); none of them is a slot-lock error. -/
def createPredictionErrorMessages : List String :=
  ["User not found",
   "Email verification required. Please verify your email before making predictions.",
   "Asset not found",
   "Asset is not available for predictions",
   "Current slot is not valid for predictions - only current and future slots are allowed",
   "You already have a prediction for this asset in the current slot",
   "No active slot available for this duration",
   "Unable to get current asset price"]

/-- A verified example user. -/
def sampleUser : UserRow := { id := 7, emailVerified := true }

/-- An active example asset. -/
def sampleAsset : AssetRow := { id := 3, symbol := "BTC", isActive := true }

/-- An example store holding the user and the asset and nothing else. -/
def sampleDb : Database :=
  { users := [sampleUser], assets := [sampleAsset], predictions := [], userProfiles := [] }

/-- An example create request for duration `1h`. -/
def sampleInput : CreatePredictionInput :=
  { userId := 7, assetSymbol := "BTC", direction := Direction.up,
    duration := DurationKey.d1h }

/-- The slot environment for slot 1 of duration `1h` on a day starting at
epoch ms 0: the slot spans `[0, 899999]` and the next boundary is at
900000 ms. -/
def sampleEnv : SlotEnv :=
  { slotNumber := 1, startMs := 0, endMs := 899999,
    slotIsValid := true, withinActiveSlot := true }

/-- The prediction `createPrediction sampleDb sampleInput sampleEnv
(some 100) none 1` persists. -/
def samplePrediction : Prediction :=
  { id := 1, userId := 7, assetId := 3, direction := Direction.up,
    duration := DurationKey.d1h, slotNumber := 1, slotStart := 0,
    slotEnd := 899999, timestampExpiration := 899999,
    status := PredictionStatus.active, result := PredictionResult.pending,
    pointsAwarded := none, priceStart := some 100, priceEnd := none,
    evaluatedAt := none }

/-- The store after that successful create. -/
def sampleDbAfter : Database :=
  { users := [sampleUser], assets := [sampleAsset],
    predictions := [samplePrediction],
    userProfiles := [{ userId := 7, totalPredictions := 1,
                       correctPredictions := 0, monthlyScore := 0,
                       totalScore := 0 }] }

/-- An empty store. -/
def emptyDb : Database :=
  { users := [], assets := [], predictions := [], userProfiles := [] }

/-- The store invariant of the idempotency key: at most one active
prediction per `(userId, assetId, duration, slotNumber, slotStart)` tuple. -/
def atMostOneActivePerKey (db : Database) : Prop :=
  ∀ (userId assetId : Nat) (duration : DurationKey) (slotNumber : Nat) (slotStart : Int),
    (db.predictions.filter (fun p =>
        p.status == PredictionStatus.active &&
        matchesSlotKey p userId assetId duration slotNumber slotStart)).length ≤ 1

/-- The example prediction already evaluated. -/
def sampleEvaluatedPrediction : Prediction :=
  { samplePrediction with status := PredictionStatus.evaluated }

/-- The example store holding only the already-evaluated prediction. -/
def sampleDbEvaluated : Database :=
  { sampleDbAfter with predictions := [sampleEvaluatedPrediction] }

lemma monthStartOffsetDays_eval (f : Nat) :
    monthStartOffsetDays f 0 = 0 ∧
    monthStartOffsetDays f 1 = 31 ∧
    monthStartOffsetDays f 2 = 31 + f ∧
    monthStartOffsetDays f 3 = 62 + f ∧
    monthStartOffsetDays f 4 = 92 + f ∧
    monthStartOffsetDays f 5 = 123 + f ∧
    monthStartOffsetDays f 6 = 153 + f ∧
    monthStartOffsetDays f 7 = 184 + f ∧
    monthStartOffsetDays f 8 = 215 + f ∧
    monthStartOffsetDays f 9 = 245 + f ∧
    monthStartOffsetDays f 10 = 276 + f ∧
    monthStartOffsetDays f 11 = 306 + f ∧
    monthStartOffsetDays f 12 = 337 + f := by
  have e1 : monthStartOffsetDays f 1 = monthStartOffsetDays f 0 + monthLengthDays f 0 := rfl
  have e2 : monthStartOffsetDays f 2 = monthStartOffsetDays f 1 + monthLengthDays f 1 := rfl
  have e3 : monthStartOffsetDays f 3 = monthStartOffsetDays f 2 + monthLengthDays f 2 := rfl
  have e4 : monthStartOffsetDays f 4 = monthStartOffsetDays f 3 + monthLengthDays f 3 := rfl
  have e5 : monthStartOffsetDays f 5 = monthStartOffsetDays f 4 + monthLengthDays f 4 := rfl
  have e6 : monthStartOffsetDays f 6 = monthStartOffsetDays f 5 + monthLengthDays f 5 := rfl
  have e7 : monthStartOffsetDays f 7 = monthStartOffsetDays f 6 + monthLengthDays f 6 := rfl
  have e8 : monthStartOffsetDays f 8 = monthStartOffsetDays f 7 + monthLengthDays f 7 := rfl
  have e9 : monthStartOffsetDays f 9 = monthStartOffsetDays f 8 + monthLengthDays f 8 := rfl
  have e10 : monthStartOffsetDays f 10 = monthStartOffsetDays f 9 + monthLengthDays f 9 := rfl
  have e11 : monthStartOffsetDays f 11 = monthStartOffsetDays f 10 + monthLengthDays f 10 := rfl
  have e12 : monthStartOffsetDays f 12 = monthStartOffsetDays f 11 + monthLengthDays f 11 := rfl
  have h0 : monthStartOffsetDays f 0 = 0 := rfl
  have l0 : monthLengthDays f 0 = 31 := rfl
  have l1 : monthLengthDays f 1 = f := rfl
  have l2 : monthLengthDays f 2 = 31 := rfl
  have l3 : monthLengthDays f 3 = 30 := rfl
  have l4 : monthLengthDays f 4 = 31 := rfl
  have l5 : monthLengthDays f 5 = 30 := rfl
  have l6 : monthLengthDays f 6 = 31 := rfl
  have l7 : monthLengthDays f 7 = 31 := rfl
  have l8 : monthLengthDays f 8 = 30 := rfl
  have l9 : monthLengthDays f 9 = 31 := rfl
  have l10 : monthLengthDays f 10 = 30 := rfl
  have l11 : monthLengthDays f 11 = 31 := rfl
  omega

lemma intervals_pos (d : DurationKey) : 1 ≤ (SLOT_CONFIGURATIONS d).intervals := by
  cases d <;> decide

lemma intervalDuration_pos (d : DurationKey) :
    0 < (SLOT_CONFIGURATIONS d).intervalDuration := by
  cases d <;> decide

lemma priceChangePercent_eq (startPrice endPrice : ℚ) (hs : 0 < startPrice) :
    priceChangePercent startPrice endPrice = |endPrice - startPrice| / startPrice * 100 := by
  unfold priceChangePercent
  rw [abs_mul, abs_div, abs_of_pos hs]
  norm_num

lemma accuracyBonus_bands (p : ℚ) :
    (p ≤ 1/10 → accuracyBonus p = 10) ∧
    (1/10 < p → p ≤ 1/2 → accuracyBonus p = 5) ∧
    (1/2 < p → p ≤ 1 → accuracyBonus p = 2) ∧
    (1 < p → accuracyBonus p = 0) := by
  unfold accuracyBonus
  refine ⟨fun h => by rw [if_pos h], fun h1 h2 => ?_, fun h1 h2 => ?_, fun h => ?_⟩
  · rw [if_neg (by linarith), if_pos h2]
  · rw [if_neg (by linarith), if_neg (by linarith), if_pos h2]
  · rw [if_neg (by linarith), if_neg (by linarith), if_neg (by linarith)]

/-- C1: a prediction is correct exactly when (direction = up and
endPrice > startPrice) or (direction = down and endPrice < startPrice) —
equality is incorrect for both directions — and a correct prediction is
awarded the base points plus the accuracy bonus tiered by
`|endPrice - startPrice| / startPrice * 100`: `+10` when at most `0.1`,
`+5` when at most `0.5`, `+2` when at most `1.0`, `+0` otherwise, each band
inclusive at its upper boundary and only the tightest band applied.  For
duration `1h` slot 1 (base points 10), start 100, end 100.05, direction up,
the award is 20. -/
theorem evaluate_correctness_and_accuracy_bonus
    (direction : Direction) (startPrice endPrice : ℚ) (basePoints : Nat)
    (hs : 0 < startPrice) :
    (isCorrectFor direction startPrice endPrice = true ↔
      ((direction = Direction.up ∧ startPrice < endPrice) ∨
       (direction = Direction.down ∧ endPrice < startPrice))) ∧
    (isCorrectFor direction startPrice endPrice = true →
      ((|endPrice - startPrice| / startPrice * 100 ≤ 1/10 →
          computePointsAwarded basePoints true startPrice endPrice = basePoints + 10) ∧
       (1/10 < |endPrice - startPrice| / startPrice * 100 →
          |endPrice - startPrice| / startPrice * 100 ≤ 1/2 →
          computePointsAwarded basePoints true startPrice endPrice = basePoints + 5) ∧
       (1/2 < |endPrice - startPrice| / startPrice * 100 →
          |endPrice - startPrice| / startPrice * 100 ≤ 1 →
          computePointsAwarded basePoints true startPrice endPrice = basePoints + 2) ∧
       (1 < |endPrice - startPrice| / startPrice * 100 →
          computePointsAwarded basePoints true startPrice endPrice = basePoints))) ∧
    getPointsForSlot DurationKey.d1h 1 = 10 ∧
    computePointsAwarded (getPointsForSlot DurationKey.d1h 1)
      (isCorrectFor Direction.up 100 (100 + 5/100)) 100 (100 + 5/100) = 20 := by
  have habs : priceChangePercent 100 (100 + 5/100) = 1/20 := by
    unfold priceChangePercent
    rw [show (100 + 5/100 - (100:ℚ)) / 100 * 100 = 1/20 by norm_num,
      abs_of_nonneg (by norm_num)]
  have hcor : isCorrectFor Direction.up 100 (100 + 5/100) = true := by
    simp only [isCorrectFor, decide_eq_true_eq]
    norm_num
  have hpts : getPointsForSlot DurationKey.d1h 1 = 10 := by decide
  have hconc : computePointsAwarded (getPointsForSlot DurationKey.d1h 1)
      (isCorrectFor Direction.up 100 (100 + 5/100)) 100 (100 + 5/100) = 20 := by
    rw [hpts, hcor]
    simp only [computePointsAwarded, accuracyBonus, habs, if_true]
    norm_num
  refine ⟨?_, ?_, by decide, hconc⟩
  · cases direction <;> simp [isCorrectFor]
  · intro _
    have hpct := priceChangePercent_eq startPrice endPrice hs
    have hcomp : computePointsAwarded basePoints true startPrice endPrice
        = (basePoints : Int) + accuracyBonus (priceChangePercent startPrice endPrice) := by
      simp [computePointsAwarded]
    obtain ⟨b1, b2, b3, b4⟩ := accuracyBonus_bands (priceChangePercent startPrice endPrice)
    rw [hpct] at b1 b2 b3 b4
    exact ⟨fun h => by rw [hcomp, hpct, b1 h],
           fun h1 h2 => by rw [hcomp, hpct, b2 h1 h2],
           fun h1 h2 => by rw [hcomp, hpct, b3 h1 h2],
           fun h => by rw [hcomp, hpct, b4 h]; ring⟩

/-- Witness for C1 at direction `up`, start 100, end 100.05, base 10. -/
theorem evaluate_correctness_and_accuracy_bonus_witness :
    (0 : ℚ) < 100 ∧
    computePointsAwarded (getPointsForSlot DurationKey.d1h 1)
      (isCorrectFor Direction.up 100 (100 + 5/100)) 100 (100 + 5/100) = 20 :=
  ⟨by norm_num,
   (evaluate_correctness_and_accuracy_bonus Direction.up 100 (100 + 5/100) 10
      (by norm_num)).2.2.2⟩

/-- C2: for every duration and in-range slot number, an incorrect prediction
is awarded exactly `-(max 1 (floor (points[i] / 2)))`, which is always
negative; for duration `24h` slot 8 (base points 1) the award is `-1`. -/
theorem incorrect_penalty_half_base_min_one
    (duration : DurationKey) (slotNumber : Nat) (startPrice endPrice : ℚ)
    (h1 : 1 ≤ slotNumber)
    (h2 : slotNumber ≤ (SLOT_CONFIGURATIONS duration).points.length) :
    computePointsAwarded (getPointsForSlot duration slotNumber) false startPrice endPrice
      = -(((max 1 ((SLOT_CONFIGURATIONS duration).points.getD (slotNumber - 1) 0 / 2) : Nat) : Int)) ∧
    computePointsAwarded (getPointsForSlot duration slotNumber) false startPrice endPrice < 0 ∧
    computePointsAwarded (getPointsForSlot DurationKey.d24h 8) false startPrice endPrice = -1 := by
  have hbase : getPointsForSlot duration slotNumber
      = (SLOT_CONFIGURATIONS duration).points.getD (slotNumber - 1) 0 := by
    unfold getPointsForSlot
    rw [if_neg (by push_neg; omega)]
  refine ⟨?_, ?_,
    by norm_num [computePointsAwarded, getPointsForSlot, SLOT_CONFIGURATIONS]⟩
  · simp [computePointsAwarded, hbase]
  · simp only [computePointsAwarded, Bool.false_eq_true, if_false]
    have : 1 ≤ (max 1 (getPointsForSlot duration slotNumber / 2) : Nat) := le_max_left _ _
    omega

/-- Witness for C2 at duration `24h`, slot 8, prices 100 and 99. -/
theorem incorrect_penalty_half_base_min_one_witness :
    1 ≤ 8 ∧ 8 ≤ (SLOT_CONFIGURATIONS DurationKey.d24h).points.length ∧
    computePointsAwarded (getPointsForSlot DurationKey.d24h 8) false 100 99 = -1 :=
  ⟨by decide, by decide,
   (incorrect_penalty_half_base_min_one DurationKey.d24h 8 100 99
      (by decide) (by decide)).2.2⟩

/-- C3 (amended): for every duration, `getSlotForDate`'s slot number equals
`floor(minutes since the duration's period start / slot length) + 1` clamped
to `[1, slotCount]` (for nonnegative elapsed minutes the lower clamp is
inert, so the value is `min (floor + 1) slotCount`), is always exactly one
value in `[1, slotCount]`, and is non-decreasing as the instant advances.
The duplicate `getCurrentSlot` variant also stays within `[1, slotCount]`,
but it applies the same clamped formula to the minutes elapsed since the
SERVER-LOCAL MIDNIGHT for every duration — the start of the day, not the
duration's period start — so for the week/month/quarter durations it
diverges from the claim's period-anchored formula. -/
theorem slot_number_in_range_and_monotone (duration : DurationKey) :
    (∀ m : ℚ, 0 ≤ m →
        slotNumberFromMinutes duration m =
          min (⌊m / ((SLOT_CONFIGURATIONS duration).intervalDuration : ℚ)⌋ + 1)
              ((SLOT_CONFIGURATIONS duration).intervals : Int)) ∧
    (∀ m : ℚ, 1 ≤ slotNumberFromMinutes duration m ∧
        slotNumberFromMinutes duration m ≤ (SLOT_CONFIGURATIONS duration).intervals) ∧
    (∀ m₁ m₂ : ℚ, m₁ ≤ m₂ →
        slotNumberFromMinutes duration m₁ ≤ slotNumberFromMinutes duration m₂) ∧
    (∀ epochMs localOffsetMs : Int,
        1 ≤ getCurrentSlotLocal duration epochMs localOffsetMs ∧
        getCurrentSlotLocal duration epochMs localOffsetMs
          ≤ (SLOT_CONFIGURATIONS duration).intervals) ∧
    (∀ epochMs localOffsetMs : Int,
        getCurrentSlotLocal duration epochMs localOffsetMs =
          slotNumberFromMinutes duration
            ((((epochMs + localOffsetMs) % 86400000 : Int) : ℚ) / 60000)) := by
  have hI : 1 ≤ ((SLOT_CONFIGURATIONS duration).intervals : Int) := by
    exact_mod_cast intervals_pos duration
  have hL : (0 : ℚ) < ((SLOT_CONFIGURATIONS duration).intervalDuration : ℚ) := by
    exact_mod_cast intervalDuration_pos duration
  refine ⟨?_, ?_, ?_, ?_, ?_⟩
  · intro m hm
    have hfloor : 0 ≤ ⌊m / ((SLOT_CONFIGURATIONS duration).intervalDuration : ℚ)⌋ :=
      Int.floor_nonneg.mpr (div_nonneg hm hL.le)
    simp only [slotNumberFromMinutes]
    omega
  · intro m
    simp only [slotNumberFromMinutes]
    omega
  · intro m₁ m₂ hm
    have hdiv : m₁ / ((SLOT_CONFIGURATIONS duration).intervalDuration : ℚ)
        ≤ m₂ / ((SLOT_CONFIGURATIONS duration).intervalDuration : ℚ) := by
      gcongr
    have hfloor := Int.floor_le_floor hdiv
    simp only [slotNumberFromMinutes]
    omega
  · intro epochMs localOffsetMs
    have hmod : 0 ≤ (epochMs + localOffsetMs) % 86400000 :=
      Int.emod_nonneg _ (by norm_num)
    have hLpos : (0 : Int) < ((SLOT_CONFIGURATIONS duration).intervalDuration : Int) * 60 * 1000 := by
      have := intervalDuration_pos duration
      positivity
    have hdivnn : 0 ≤ ((epochMs + localOffsetMs) % 86400000) /
        (((SLOT_CONFIGURATIONS duration).intervalDuration : Int) * 60 * 1000) :=
      Int.ediv_nonneg hmod hLpos.le
    simp only [getCurrentSlotLocal]
    omega
  · intro epochMs localOffsetMs
    have hmod : 0 ≤ (epochMs + localOffsetMs) % 86400000 :=
      Int.emod_nonneg _ (by norm_num)
    have hLpos : (0 : Int) < ((SLOT_CONFIGURATIONS duration).intervalDuration : Int) * 60 * 1000 := by
      have := intervalDuration_pos duration
      positivity
    have hfloor : ⌊((((epochMs + localOffsetMs) % 86400000 : Int) : ℚ) / 60000) /
          ((SLOT_CONFIGURATIONS duration).intervalDuration : ℚ)⌋
        = ((epochMs + localOffsetMs) % 86400000) /
          (((SLOT_CONFIGURATIONS duration).intervalDuration : Int) * 60 * 1000) := by
      rw [div_div]
      have h1 : (60000 : ℚ) * ((SLOT_CONFIGURATIONS duration).intervalDuration : ℚ)
          = ((60000 * (SLOT_CONFIGURATIONS duration).intervalDuration : ℕ) : ℚ) := by
        push_cast
        ring
      rw [h1, Rat.floor_intCast_div_natCast]
      congr 1
      push_cast
      ring
    have hdivnn : 0 ≤ ((epochMs + localOffsetMs) % 86400000) /
        (((SLOT_CONFIGURATIONS duration).intervalDuration : Int) * 60 * 1000) :=
      Int.ediv_nonneg hmod hLpos.le
    simp only [getCurrentSlotLocal, slotNumberFromMinutes, hfloor]
    omega

/-- C3 counterexample: the claim's period-anchored formula is false of the
cited `getCurrentSlot`.  The instant 518400000 ms (Wednesday 1970-01-07
00:00 UTC, on a UTC server) lies 2880 minutes after the start of its ISO
week (Monday 1970-01-05 00:00), so for duration `1w` the claim's formula
gives slot `min (max (floor (2880/1440) + 1) 1) 7 = 3`, while
`getCurrentSlot` — anchored at the start of the server-local day — returns
slot 1. -/
theorem getCurrentSlot_breaks_period_formula :
    slotNumberFromMinutes DurationKey.d1w 2880 = 3 ∧
    getCurrentSlotLocal DurationKey.d1w 518400000 0 = 1 ∧
    getCurrentSlotLocal DurationKey.d1w 518400000 0
      ≠ slotNumberFromMinutes DurationKey.d1w 2880 := by
  have h2 : ((2880 : ℚ) / ((1440 : ℕ) : ℚ)) = ((2 : ℤ) : ℚ) := by
    push_cast
    norm_num
  have hone : slotNumberFromMinutes DurationKey.d1w 2880 = 3 := by
    simp only [slotNumberFromMinutes, SLOT_CONFIGURATIONS]
    rw [show ((1440 : ℕ) : ℚ) = ((1440 : ℕ) : ℚ) from rfl, h2, Int.floor_intCast]
    decide
  have htwo : getCurrentSlotLocal DurationKey.d1w 518400000 0 = 1 := by decide
  exact ⟨hone, htwo, by rw [hone, htwo]; decide⟩

/-- Witness for C3 at duration `1h` and 37 elapsed minutes. -/
theorem slot_number_in_range_and_monotone_witness :
    (0 : ℚ) ≤ 37 ∧
    slotNumberFromMinutes DurationKey.d1h 37 =
      min (⌊(37 : ℚ) / ((SLOT_CONFIGURATIONS DurationKey.d1h).intervalDuration : ℚ)⌋ + 1)
          ((SLOT_CONFIGURATIONS DurationKey.d1h).intervals : Int) :=
  ⟨by norm_num,
   (slot_number_in_range_and_monotone DurationKey.d1h).1 37 (by norm_num)⟩

lemma minute_slots_disjoint (duration : DurationKey)
    (hL : (0 : Int) < ((SLOT_CONFIGURATIONS duration).intervalDuration : Int) * 60000) :
    ∀ n m : Nat, ∀ t : Int, 1 ≤ n → 1 ≤ m →
        msInSlot duration n t → msInSlot duration m t → n = m := by
  intro n m t hn hm hnt hmt
  obtain ⟨hs1, he1⟩ := hnt
  obtain ⟨hs2, he2⟩ := hmt
  unfold slotStartOffsetMs at hs1 hs2
  unfold slotEndOffsetMs at he1 he2
  set L : Int := ((SLOT_CONFIGURATIONS duration).intervalDuration : Int) * 60000 with hLdef
  rw [mul_assoc, ← hLdef] at hs1 hs2 he1 he2
  have h1 : ((m : Int) - 1) * L < (n : Int) * L := by linarith
  have h2 : ((n : Int) - 1) * L < (m : Int) * L := by linarith
  have h3 : (m : Int) - 1 < n := lt_of_mul_lt_mul_right (by linarith) hL.le
  have h4 : (n : Int) - 1 < m := lt_of_mul_lt_mul_right (by linarith) hL.le
  omega

lemma minute_slots_cover (duration : DurationKey)
    (hL : (0 : Int) < ((SLOT_CONFIGURATIONS duration).intervalDuration : Int) * 60000) :
    ∀ t : Int,
      (0 ≤ t ∧ t < ((SLOT_CONFIGURATIONS duration).intervals : Int) *
          ((SLOT_CONFIGURATIONS duration).intervalDuration : Int) * 60000) ↔
      ∃ n : Nat, 1 ≤ n ∧ n ≤ (SLOT_CONFIGURATIONS duration).intervals ∧
        msInSlot duration n t := by
  intro t
  set L : Int := ((SLOT_CONFIGURATIONS duration).intervalDuration : Int) * 60000 with hLdef
  constructor
  · rintro ⟨ht0, htI⟩
    refine ⟨(t / L).toNat + 1, by omega, ?_, ?_, ?_⟩
    · have hqnn : 0 ≤ t / L := Int.ediv_nonneg ht0 hL.le
      have hlt : t / L < ((SLOT_CONFIGURATIONS duration).intervals : Int) := by
        rw [Int.ediv_lt_iff_lt_mul hL]
        calc t < ((SLOT_CONFIGURATIONS duration).intervals : Int) *
            ((SLOT_CONFIGURATIONS duration).intervalDuration : Int) * 60000 := htI
          _ = ((SLOT_CONFIGURATIONS duration).intervals : Int) * L := by
              rw [hLdef]; ring
      omega
    · unfold slotStartOffsetMs
      rw [mul_assoc, ← hLdef]
      have hqnn : 0 ≤ t / L := Int.ediv_nonneg ht0 hL.le
      have hmul : t / L * L ≤ t := Int.ediv_mul_le t (by omega)
      have : (((t / L).toNat + 1 : Nat) : Int) - 1 = t / L := by omega
      rw [this]
      exact hmul
    · unfold slotEndOffsetMs
      rw [mul_assoc, ← hLdef]
      have hqnn : 0 ≤ t / L := Int.ediv_nonneg ht0 hL.le
      have hlt : t < (t / L + 1) * L := Int.lt_ediv_add_one_mul_self t hL
      have : (((t / L).toNat + 1 : Nat) : Int) = t / L + 1 := by omega
      rw [this]
      omega
  · rintro ⟨n, hn1, hn2, hs, he⟩
    unfold slotStartOffsetMs at hs
    unfold slotEndOffsetMs at he
    rw [mul_assoc, ← hLdef] at hs he
    have h0 : (0 : Int) ≤ ((n : Int) - 1) * L := by
      apply mul_nonneg _ hL.le
      omega
    have hnI : (n : Int) * L ≤ ((SLOT_CONFIGURATIONS duration).intervals : Int) * L := by
      apply mul_le_mul_of_nonneg_right _ hL.le
      exact_mod_cast hn2
    constructor
    · omega
    · calc t < (n : Int) * L := by omega
        _ ≤ ((SLOT_CONFIGURATIONS duration).intervals : Int) * L := hnI
        _ = ((SLOT_CONFIGURATIONS duration).intervals : Int) *
            ((SLOT_CONFIGURATIONS duration).intervalDuration : Int) * 60000 := by
            rw [hLdef]; ring

/-- C4 counterexample: for duration `1h` the four 15-minute slots cover only
the first hour of the anchoring day period, so their union does not equal
the day: the instant 3600000 ms (01:00) lies in the day but in no slot. -/
theorem slot_union_misses_day_instant :
    ¬ (∀ t : Int, (0 ≤ t ∧ t < 86400000) ↔
        ∃ n : Nat, 1 ≤ n ∧ n ≤ (SLOT_CONFIGURATIONS DurationKey.d1h).intervals ∧
          msInSlot DurationKey.d1h n t) := by
  intro h
  obtain ⟨n, hn1, hn2, hs, he⟩ := (h 3600000).mp (by norm_num)
  simp only [msInSlot, slotStartOffsetMs, slotEndOffsetMs, SLOT_CONFIGURATIONS] at hs he hn2
  omega

lemma partition_mono_le (s : Nat → Int) (count : Nat)
    (hmono : ∀ k, k < count → s k ≤ s (k + 1)) :
    ∀ i j : Nat, i ≤ j → j ≤ count → s i ≤ s j := by
  intro i j
  induction j with
  | zero =>
      intro hij _
      have h : i = 0 := by omega
      rw [h]
  | succ j ih =>
      intro hij hj
      rcases Nat.eq_or_lt_of_le hij with heq | hlt
      · rw [heq]
      · have h1 : s i ≤ s j := ih (by omega) (by omega)
        have h2 : s j ≤ s (j + 1) := hmono j (by omega)
        omega

lemma partition_disjoint (s : Nat → Int) (count : Nat)
    (hmono : ∀ k, k < count → s k ≤ s (k + 1)) :
    ∀ n m : Nat, ∀ t : Int, 1 ≤ n → n ≤ count → 1 ≤ m → m ≤ count →
      (s (n - 1) ≤ t ∧ t ≤ s n - 1) → (s (m - 1) ≤ t ∧ t ≤ s m - 1) → n = m := by
  intro n m t hn1 hn2 hm1 hm2 ha hb
  obtain ⟨ha1, ha2⟩ := ha
  obtain ⟨hb1, hb2⟩ := hb
  by_contra hne
  rcases Nat.lt_or_ge n m with hlt | hge
  · have h := partition_mono_le s count hmono n (m - 1) (by omega) (by omega)
    omega
  · have hlt2 : m < n := by omega
    have h := partition_mono_le s count hmono m (n - 1) (by omega) (by omega)
    omega

lemma partition_cover_aux (s : Nat → Int) :
    ∀ count : Nat, (∀ k, k < count → s k ≤ s (k + 1)) →
    ∀ t : Int, s 0 ≤ t → t < s count →
      ∃ n : Nat, 1 ≤ n ∧ n ≤ count ∧ s (n - 1) ≤ t ∧ t ≤ s n - 1 := by
  intro count
  induction count with
  | zero =>
      intro _ t h0 hc
      omega
  | succ c ih =>
      intro hmono t h0 hc
      by_cases hlt : t < s c
      · obtain ⟨n, h1, h2, h3, h4⟩ := ih (fun k hk => hmono k (by omega)) t h0 hlt
        exact ⟨n, h1, by omega, h3, h4⟩
      · refine ⟨c + 1, by omega, le_refl _, ?_, by omega⟩
        simpa using not_lt.mp hlt

lemma partition_cover (s : Nat → Int) (count : Nat)
    (hmono : ∀ k, k < count → s k ≤ s (k + 1)) (t : Int) :
    (s 0 ≤ t ∧ t < s count) ↔
      ∃ n : Nat, 1 ≤ n ∧ n ≤ count ∧ s (n - 1) ≤ t ∧ t ≤ s n - 1 := by
  constructor
  · rintro ⟨h0, hc⟩
    exact partition_cover_aux s count hmono t h0 hc
  · rintro ⟨n, h1, h2, h3, h4⟩
    have hle1 := partition_mono_le s count hmono 0 (n - 1) (by omega) (by omega)
    have hle2 := partition_mono_le s count hmono n count h2 (le_refl count)
    omega

lemma calendar_slots_d3m (febDays : Nat) :
    (∀ n : Nat, getSlotTimesEndMs DurationKey.d3m febDays n + 1
        = getSlotTimesStartMs DurationKey.d3m febDays (n + 1)) ∧
    (∀ n m : Nat, ∀ t : Int,
        1 ≤ n → n ≤ (SLOT_CONFIGURATIONS DurationKey.d3m).intervals →
        1 ≤ m → m ≤ (SLOT_CONFIGURATIONS DurationKey.d3m).intervals →
        msInSlotTimes DurationKey.d3m febDays n t →
        msInSlotTimes DurationKey.d3m febDays m t → n = m) ∧
    (∀ t : Int,
        (0 ≤ t ∧ t < (monthStartOffsetDays febDays
            (monthsSpanned DurationKey.d3m) : Int) * 86400000) ↔
        ∃ n : Nat, 1 ≤ n ∧ n ≤ (SLOT_CONFIGURATIONS DurationKey.d3m).intervals ∧
          msInSlotTimes DurationKey.d3m febDays n t) := by
  obtain ⟨m0, m1, m2, m3, m4, m5, m6, m7, m8, m9, m10, m11, m12⟩ :=
    monthStartOffsetDays_eval febDays
  have hmono : ∀ k, k < 3 → (monthStartOffsetDays febDays k : Int) * 86400000
      ≤ (monthStartOffsetDays febDays (k + 1) : Int) * 86400000 := by
    intro k hk
    interval_cases k <;> norm_num <;> omega
  refine ⟨?_, ?_, ?_⟩
  · intro n
    simp only [getSlotTimesEndMs, getSlotTimesStartMs, Nat.add_sub_cancel]
    ring
  · intro n m t hn1 hn2 hm1 hm2 hnt hmt
    simp only [SLOT_CONFIGURATIONS] at hn2 hm2
    simp only [msInSlotTimes, getSlotTimesStartMs, getSlotTimesEndMs] at hnt hmt
    exact partition_disjoint
      (fun k => (monthStartOffsetDays febDays k : Int) * 86400000) 3 hmono
      n m t hn1 hn2 hm1 hm2 hnt hmt
  · intro t
    simp only [monthsSpanned, SLOT_CONFIGURATIONS, msInSlotTimes,
      getSlotTimesStartMs, getSlotTimesEndMs]
    have hcov := partition_cover
      (fun k => (monthStartOffsetDays febDays k : Int) * 86400000) 3 hmono t
    simp only [m0, Nat.cast_zero, zero_mul] at hcov
    exact hcov

lemma calendar_slots_d6m (febDays : Nat) :
    (∀ n : Nat, getSlotTimesEndMs DurationKey.d6m febDays n + 1
        = getSlotTimesStartMs DurationKey.d6m febDays (n + 1)) ∧
    (∀ n m : Nat, ∀ t : Int,
        1 ≤ n → n ≤ (SLOT_CONFIGURATIONS DurationKey.d6m).intervals →
        1 ≤ m → m ≤ (SLOT_CONFIGURATIONS DurationKey.d6m).intervals →
        msInSlotTimes DurationKey.d6m febDays n t →
        msInSlotTimes DurationKey.d6m febDays m t → n = m) ∧
    (∀ t : Int,
        (0 ≤ t ∧ t < (monthStartOffsetDays febDays
            (monthsSpanned DurationKey.d6m) : Int) * 86400000) ↔
        ∃ n : Nat, 1 ≤ n ∧ n ≤ (SLOT_CONFIGURATIONS DurationKey.d6m).intervals ∧
          msInSlotTimes DurationKey.d6m febDays n t) := by
  obtain ⟨m0, m1, m2, m3, m4, m5, m6, m7, m8, m9, m10, m11, m12⟩ :=
    monthStartOffsetDays_eval febDays
  have hmono : ∀ k, k < 6 → (monthStartOffsetDays febDays k : Int) * 86400000
      ≤ (monthStartOffsetDays febDays (k + 1) : Int) * 86400000 := by
    intro k hk
    interval_cases k <;> norm_num <;> omega
  refine ⟨?_, ?_, ?_⟩
  · intro n
    simp only [getSlotTimesEndMs, getSlotTimesStartMs, Nat.add_sub_cancel]
    ring
  · intro n m t hn1 hn2 hm1 hm2 hnt hmt
    simp only [SLOT_CONFIGURATIONS] at hn2 hm2
    simp only [msInSlotTimes, getSlotTimesStartMs, getSlotTimesEndMs] at hnt hmt
    exact partition_disjoint
      (fun k => (monthStartOffsetDays febDays k : Int) * 86400000) 6 hmono
      n m t hn1 hn2 hm1 hm2 hnt hmt
  · intro t
    simp only [monthsSpanned, SLOT_CONFIGURATIONS, msInSlotTimes,
      getSlotTimesStartMs, getSlotTimesEndMs]
    have hcov := partition_cover
      (fun k => (monthStartOffsetDays febDays k : Int) * 86400000) 6 hmono t
    simp only [m0, Nat.cast_zero, zero_mul] at hcov
    exact hcov

lemma calendar_slots_d1y (febDays : Nat) :
    (∀ n : Nat, getSlotTimesEndMs DurationKey.d1y febDays n + 1
        = getSlotTimesStartMs DurationKey.d1y febDays (n + 1)) ∧
    (∀ n m : Nat, ∀ t : Int,
        1 ≤ n → n ≤ (SLOT_CONFIGURATIONS DurationKey.d1y).intervals →
        1 ≤ m → m ≤ (SLOT_CONFIGURATIONS DurationKey.d1y).intervals →
        msInSlotTimes DurationKey.d1y febDays n t →
        msInSlotTimes DurationKey.d1y febDays m t → n = m) ∧
    (∀ t : Int,
        (0 ≤ t ∧ t < (monthStartOffsetDays febDays
            (monthsSpanned DurationKey.d1y) : Int) * 86400000) ↔
        ∃ n : Nat, 1 ≤ n ∧ n ≤ (SLOT_CONFIGURATIONS DurationKey.d1y).intervals ∧
          msInSlotTimes DurationKey.d1y febDays n t) := by
  obtain ⟨m0, m1, m2, m3, m4, m5, m6, m7, m8, m9, m10, m11, m12⟩ :=
    monthStartOffsetDays_eval febDays
  have hmono : ∀ k, k < 4 → (monthStartOffsetDays febDays (3 * k) : Int) * 86400000
      ≤ (monthStartOffsetDays febDays (3 * (k + 1)) : Int) * 86400000 := by
    intro k hk
    interval_cases k <;> norm_num <;> omega
  refine ⟨?_, ?_, ?_⟩
  · intro n
    simp only [getSlotTimesEndMs, getSlotTimesStartMs, Nat.add_sub_cancel]
    ring
  · intro n m t hn1 hn2 hm1 hm2 hnt hmt
    simp only [SLOT_CONFIGURATIONS] at hn2 hm2
    simp only [msInSlotTimes, getSlotTimesStartMs, getSlotTimesEndMs] at hnt hmt
    exact partition_disjoint
      (fun k => (monthStartOffsetDays febDays (3 * k) : Int) * 86400000) 4 hmono
      n m t hn1 hn2 hm1 hm2 hnt hmt
  · intro t
    simp only [monthsSpanned, SLOT_CONFIGURATIONS, msInSlotTimes,
      getSlotTimesStartMs, getSlotTimesEndMs]
    have hcov := partition_cover
      (fun k => (monthStartOffsetDays febDays (3 * k) : Int) * 86400000) 4 hmono t
    simp only [Nat.reduceMul, m0, Nat.cast_zero, zero_mul] at hcov
    exact hcov

/-- C4 (amended): `getSlotTimes` has two regimes.  For the minute-based
durations (`1h`, `3h`, `6h`, `24h`, `48h`, `1w`, `1m`) the boundaries are
`start = periodStart + (n-1)*slotLength` and
`end = periodStart + n*slotLength - 1ms`; those intervals are contiguous
and non-overlapping and their union over `n ∈ [1, slotCount]` is exactly
`[periodStart, periodStart + slotCount*slotLength)`, which coincides with
the duration's anchoring period only when `slotCount * slotLength` equals
the period length (as for `24h` over a day or `1w` over a week), not for
every duration.  For the calendar durations (`3m`, `6m`, `1y`) the
boundaries follow calendar months anchored at January 1 — month `n-1` to
month `n` for `3m`/`6m`, quarter `n` for `1y` — and those intervals are
likewise contiguous, non-overlapping, and cover the spanned months
(3, 6, or 12 respectively) exactly once. -/
theorem slot_intervals_contiguous_disjoint_cover
    (duration : DurationKey) (febDays : Nat) :
    (usesCalendarMonths duration = false →
        (∀ n : Nat,
            getSlotTimesStartMs duration febDays n
              = ((n : Int) - 1) *
                ((SLOT_CONFIGURATIONS duration).intervalDuration : Int) * 60000 ∧
            getSlotTimesEndMs duration febDays n
              = (n : Int) *
                ((SLOT_CONFIGURATIONS duration).intervalDuration : Int) * 60000 - 1) ∧
        (∀ n : Nat, slotEndOffsetMs duration n + 1 = slotStartOffsetMs duration (n + 1)) ∧
        (∀ n m : Nat, ∀ t : Int, 1 ≤ n → 1 ≤ m →
            msInSlot duration n t → msInSlot duration m t → n = m) ∧
        (∀ t : Int,
            (0 ≤ t ∧ t < ((SLOT_CONFIGURATIONS duration).intervals : Int) *
                ((SLOT_CONFIGURATIONS duration).intervalDuration : Int) * 60000) ↔
            ∃ n : Nat, 1 ≤ n ∧ n ≤ (SLOT_CONFIGURATIONS duration).intervals ∧
              msInSlot duration n t)) ∧
    (usesCalendarMonths duration = true →
        (∀ n : Nat, getSlotTimesEndMs duration febDays n + 1
            = getSlotTimesStartMs duration febDays (n + 1)) ∧
        (∀ n m : Nat, ∀ t : Int,
            1 ≤ n → n ≤ (SLOT_CONFIGURATIONS duration).intervals →
            1 ≤ m → m ≤ (SLOT_CONFIGURATIONS duration).intervals →
            msInSlotTimes duration febDays n t →
            msInSlotTimes duration febDays m t → n = m) ∧
        (∀ t : Int,
            (0 ≤ t ∧ t < (monthStartOffsetDays febDays (monthsSpanned duration) : Int)
                * 86400000) ↔
            ∃ n : Nat, 1 ≤ n ∧ n ≤ (SLOT_CONFIGURATIONS duration).intervals ∧
              msInSlotTimes duration febDays n t)) := by
  have hL : (0 : Int) < ((SLOT_CONFIGURATIONS duration).intervalDuration : Int) * 60000 := by
    have := intervalDuration_pos duration
    positivity
  obtain ⟨m0, m1, m2, m3, m4, m5, m6, m7, m8, m9, m10, m11, m12⟩ :=
    monthStartOffsetDays_eval febDays
  constructor
  · intro hmb
    refine ⟨?_, ?_, ?_, ?_⟩
    · intro n
      cases duration <;>
        first
          | exact absurd hmb (by decide)
          | exact ⟨rfl, rfl⟩
    · intro n
      unfold slotEndOffsetMs slotStartOffsetMs
      push_cast
      ring
    · exact minute_slots_disjoint duration hL
    · exact minute_slots_cover duration hL
  · intro hcal
    cases duration
    case d3m => exact calendar_slots_d3m febDays
    case d6m => exact calendar_slots_d6m febDays
    case d1y => exact calendar_slots_d1y febDays
    all_goals exact absurd hcal (by decide)

/-- Witness for C4 (amended): coverage at instant 0 for the minute-based
duration `24h` and for the calendar duration `3m` with a 28-day February. -/
theorem slot_intervals_cover_witness :
    usesCalendarMonths DurationKey.d24h = false ∧
    (∃ n : Nat, 1 ≤ n ∧ n ≤ (SLOT_CONFIGURATIONS DurationKey.d24h).intervals ∧
      msInSlot DurationKey.d24h n 0) ∧
    usesCalendarMonths DurationKey.d3m = true ∧
    (∃ n : Nat, 1 ≤ n ∧ n ≤ (SLOT_CONFIGURATIONS DurationKey.d3m).intervals ∧
      msInSlotTimes DurationKey.d3m 28 n 0) :=
  ⟨by decide,
   (((slot_intervals_contiguous_disjoint_cover DurationKey.d24h 28).1
       (by decide)).2.2.2 0).mp ⟨le_refl 0, by norm_num [SLOT_CONFIGURATIONS]⟩,
   by decide,
   (((slot_intervals_contiguous_disjoint_cover DurationKey.d3m 28).2
       (by decide)).2.2 0).mp ⟨le_refl 0, by decide⟩⟩

lemma createPrediction_ok_inv {db : Database} {input : CreatePredictionInput}
    {env : SlotEnv} {livePrice cachedPrice : Option ℚ} {newId : Nat}
    {db2 : Database} {p : Prediction}
    (h : createPrediction db input env livePrice cachedPrice newId = .ok (db2, p)) :
    ∃ user asset currentPrice,
      db.users.find? (fun u => u.id == input.userId) = some user ∧
      user.emailVerified = true ∧
      db.assets.find? (fun a => a.symbol == input.assetSymbol) = some asset ∧
      asset.isActive = true ∧
      env.slotIsValid = true ∧
      db.predictions.find? (fun q =>
        matchesSlotKey q input.userId asset.id input.duration
          env.slotNumber env.startMs) = none ∧
      env.withinActiveSlot = true ∧
      firstTruthyPrice livePrice cachedPrice = some currentPrice ∧
      p = { id := newId, userId := input.userId, assetId := asset.id,
            direction := input.direction, duration := input.duration,
            slotNumber := env.slotNumber, slotStart := env.startMs,
            slotEnd := env.endMs, timestampExpiration := env.endMs,
            status := PredictionStatus.active, result := PredictionResult.pending,
            pointsAwarded := none, priceStart := some currentPrice,
            priceEnd := none, evaluatedAt := none } ∧
      db2 = bumpTotalPredictions
        { db with predictions := db.predictions ++ [p] } input.userId := by
  unfold createPrediction at h
  split at h
  next => exact (Except.noConfusion h)
  next user huser =>
    split at h
    next => exact (Except.noConfusion h)
    next hverified =>
      split at h
      next => exact (Except.noConfusion h)
      next asset hasset =>
        split at h
        next => exact (Except.noConfusion h)
        next hactive =>
          split at h
          next => exact (Except.noConfusion h)
          next hvalid =>
            split at h
            next => exact (Except.noConfusion h)
            next hdup =>
              split at h
              next => exact (Except.noConfusion h)
              next hwithin =>
                split at h
                next => exact (Except.noConfusion h)
                next currentPrice hprice =>
                  simp only [Except.ok.injEq, Prod.mk.injEq] at h
                  obtain ⟨hdb2, hp⟩ := h
                  refine ⟨user, asset, currentPrice, huser, ?_, hasset, ?_, ?_,
                    ?_, ?_, hprice, hp.symm, ?_⟩
                  · simpa using hverified
                  · simpa using hactive
                  · simpa using hvalid
                  · simpa [Option.not_isSome_iff_eq_none] using hdup
                  · simpa using hwithin
                  · rw [← hdb2, ← hp]

lemma find?_append_of_none {α : Type} {p : α → Bool} {l₁ l₂ : List α}
    (h : l₁.find? p = none) : (l₁ ++ l₂).find? p = l₂.find? p := by
  induction l₁ with
  | nil => simp
  | cons a l ih =>
      cases hpa : p a with
      | true =>
          rw [List.find?_cons_of_pos _ hpa] at h
          exact absurd h (by simp)
      | false =>
          rw [List.find?_cons_of_neg _ (by simp [hpa])] at h
          rw [List.cons_append, List.find?_cons_of_neg _ (by simp [hpa])]
          exact ih h

lemma bumpTotalPredictions_predictions (db : Database) (userId : Nat) :
    (bumpTotalPredictions db userId).predictions = db.predictions := by
  unfold bumpTotalPredictions
  split <;> rfl

lemma bumpTotalPredictions_users (db : Database) (userId : Nat) :
    (bumpTotalPredictions db userId).users = db.users := by
  unfold bumpTotalPredictions
  split <;> rfl

lemma bumpTotalPredictions_assets (db : Database) (userId : Nat) :
    (bumpTotalPredictions db userId).assets = db.assets := by
  unfold bumpTotalPredictions
  split <;> rfl

lemma createPrediction_error_mem {db : Database} {input : CreatePredictionInput}
    {env : SlotEnv} {livePrice cachedPrice : Option ℚ} {newId : Nat} {msg : String}
    (h : createPrediction db input env livePrice cachedPrice newId = .error msg) :
    msg ∈ createPredictionErrorMessages := by
  unfold createPrediction at h
  repeat' split at h
  all_goals first
    | exact (Except.noConfusion h)
    | (injection h with h1; subst h1; simp [createPredictionErrorMessages])

/-- C5 counterexample: at instant 660000 ms — four minutes before the
900000 ms boundary of duration `1h` — the upcoming slot 2 is inside the
5-minute lock window, yet the create request succeeds instead of failing
with a `SlotLockedError`: `createPrediction` performs no lock check at all. -/
theorem create_succeeds_inside_lock_window :
    isSlotLockedAt (900000 : Int) 660000 = true ∧
    createPrediction sampleDb sampleInput sampleEnv (some 100) none 1
      = .ok (sampleDbAfter, samplePrediction) := by
  constructor
  · decide
  · rfl

/-- C5 (amended): `isSlotLocked` is true exactly for instants with
`slotStart - now ≤ 5` minutes (hence false for instants further than 5
minutes before the start), but prediction creation never refuses a locked
slot: every error `createPrediction` can return is one of the eight
catalogued messages, none of which is a slot-lock error, and concretely the
request 10 minutes before the `1h` boundary (unlocked) succeeds just like
the request 4 minutes before it (locked). -/
theorem lock_window_and_create_never_lock_errors :
    (∀ slotStartTime nowMs : Int,
        isSlotLockedAt slotStartTime nowMs = true ↔
          slotStartTime - nowMs ≤ 5 * 60 * 1000) ∧
    (∀ (db : Database) (input : CreatePredictionInput) (env : SlotEnv)
        (livePrice cachedPrice : Option ℚ) (newId : Nat) (msg : String),
        createPrediction db input env livePrice cachedPrice newId = .error msg →
        msg ∈ createPredictionErrorMessages) ∧
    isSlotLockedAt (900000 : Int) 300000 = false ∧
    createPrediction sampleDb sampleInput sampleEnv (some 100) none 1
      = .ok (sampleDbAfter, samplePrediction) := by
  refine ⟨?_, ?_, by decide, by rfl⟩
  · intro s n
    simp [isSlotLockedAt, LOCK_BEFORE_START_MINUTES]
  · intro db input env livePrice cachedPrice newId msg h
    exact createPrediction_error_mem h

/-- Witness for C5 (amended) at a store without the requesting user. -/
theorem lock_window_and_create_never_lock_errors_witness :
    createPrediction emptyDb sampleInput sampleEnv (some 100) none 1
      = .error "User not found" ∧
    "User not found" ∈ createPredictionErrorMessages :=
  ⟨by rfl,
   lock_window_and_create_never_lock_errors.2.1
     emptyDb sampleInput sampleEnv (some 100) none 1 "User not found" (by rfl)⟩

/-- C6: the store holds at most one active prediction per idempotency tuple
and `createPrediction` preserves this invariant; moreover a successful
create leaves exactly one persisted prediction for its tuple, and the
identical call run again against the new store fails with the duplicate
error. -/
theorem create_preserves_idempotency_key
    (db : Database) (input : CreatePredictionInput) (env : SlotEnv)
    (livePrice cachedPrice : Option ℚ) (newId : Nat)
    (db2 : Database) (p : Prediction)
    (livePrice2 cachedPrice2 : Option ℚ) (newId2 : Nat)
    (h : createPrediction db input env livePrice cachedPrice newId = .ok (db2, p)) :
    (atMostOneActivePerKey db → atMostOneActivePerKey db2) ∧
    (db2.predictions.filter (fun q =>
        matchesSlotKey q input.userId p.assetId input.duration
          env.slotNumber env.startMs)).length = 1 ∧
    createPrediction db2 input env livePrice2 cachedPrice2 newId2
      = .error "You already have a prediction for this asset in the current slot" := by
  obtain ⟨user, asset, currentPrice, huser, hver, hasset, hact, hvalid, hdup,
    hwithin, hprice, hp, hdb2⟩ := createPrediction_ok_inv h
  have hnodup : ∀ q ∈ db.predictions,
      matchesSlotKey q input.userId asset.id input.duration
        env.slotNumber env.startMs = false := by
    intro q hq
    have := List.find?_eq_none.mp hdup q hq
    simpa using this
  have hpreds : db2.predictions = db.predictions ++ [p] := by
    rw [hdb2, bumpTotalPredictions_predictions]
  have hpmatch : matchesSlotKey p input.userId asset.id input.duration
      env.slotNumber env.startMs = true := by
    subst hp
    simp [matchesSlotKey]
  have hpassetId : p.assetId = asset.id := by rw [hp]
  refine ⟨?_, ?_, ?_⟩
  · intro hinv userId assetId duration slotNumber slotStart
    rw [hpreds, List.filter_append]
    by_cases hm : (p.status == PredictionStatus.active &&
        matchesSlotKey p userId assetId duration slotNumber slotStart) = true
    · have hkey : input.userId = userId ∧ asset.id = assetId ∧
          input.duration = duration ∧ env.slotNumber = slotNumber ∧
          env.startMs = slotStart := by
        subst hp
        simp [matchesSlotKey] at hm
        tauto
      obtain ⟨e1, e2, e3, e4, e5⟩ := hkey
      subst e1; subst e2; subst e3; subst e4; subst e5
      have hzero : db.predictions.filter (fun q =>
          q.status == PredictionStatus.active &&
          matchesSlotKey q input.userId asset.id input.duration
            env.slotNumber env.startMs) = [] := by
        rw [List.filter_eq_nil_iff]
        intro q hq
        simp [hnodup q hq]
      rw [hzero, List.nil_append]
      exact le_trans (List.length_filter_le _ _) (by simp)
    · have hmb : (p.status == PredictionStatus.active &&
          matchesSlotKey p userId assetId duration slotNumber slotStart) = false := by
        simpa using hm
      have hone : List.filter (fun q => q.status == PredictionStatus.active &&
          matchesSlotKey q userId assetId duration slotNumber slotStart) [p] = [] := by
        simp [hmb]
      rw [hone, List.append_nil]
      exact hinv userId assetId duration slotNumber slotStart
  · rw [hpreds, hpassetId, List.filter_append]
    have hzero : db.predictions.filter (fun q =>
        matchesSlotKey q input.userId asset.id input.duration
          env.slotNumber env.startMs) = [] := by
      rw [List.filter_eq_nil_iff]
      intro q hq
      simp [hnodup q hq]
    rw [hzero, List.nil_append]
    simp [hpmatch]
  · have husers : db2.users = db.users := by
      rw [hdb2, bumpTotalPredictions_users]
    have hassets : db2.assets = db.assets := by
      rw [hdb2, bumpTotalPredictions_assets]
    have hfound : db2.predictions.find? (fun q =>
        matchesSlotKey q input.userId asset.id input.duration
          env.slotNumber env.startMs) = some p := by
      rw [hpreds, find?_append_of_none hdup]
      simp [List.find?, hpmatch]
    unfold createPrediction
    rw [husers, huser]
    simp only [hver, Bool.not_true, Bool.false_eq_true, if_false, hassets,
      hasset, hact, hvalid, hfound, Option.isSome_some, if_true]

/-- Witness for C6 at the example store: the create succeeds once and the
identical second call fails with the duplicate error. -/
theorem create_preserves_idempotency_key_witness :
    (atMostOneActivePerKey sampleDb → atMostOneActivePerKey sampleDbAfter) ∧
    (sampleDbAfter.predictions.filter (fun q =>
        matchesSlotKey q sampleInput.userId samplePrediction.assetId
          sampleInput.duration sampleEnv.slotNumber sampleEnv.startMs)).length = 1 ∧
    createPrediction sampleDbAfter sampleInput sampleEnv (some 100) none 2
      = .error "You already have a prediction for this asset in the current slot" :=
  create_preserves_idempotency_key sampleDb sampleInput sampleEnv
    (some 100) none 1 sampleDbAfter samplePrediction (some 100) none 2 (by rfl)

lemma evaluatePrediction_ok_inv {db : Database} {predictionId : Nat}
    {livePrice cachedPrice : Option ℚ} {nowMs : Int}
    {db2 : Database} {outcome : EvaluationOutcome}
    (h : evaluatePrediction db predictionId livePrice cachedPrice nowMs
      = .ok (db2, outcome)) :
    ∃ prediction asset endPrice startPrice,
      db.predictions.find? (fun p => p.id == predictionId) = some prediction ∧
      prediction.status = PredictionStatus.active ∧
      db.assets.find? (fun a => a.id == prediction.assetId) = some asset ∧
      firstTruthyPrice livePrice cachedPrice = some endPrice ∧
      prediction.priceStart = some startPrice ∧
      outcome = { predictionId := predictionId,
                  isCorrect := isCorrectFor prediction.direction startPrice endPrice,
                  pointsAwarded := computePointsAwarded
                    (getPointsForSlot prediction.duration prediction.slotNumber)
                    (isCorrectFor prediction.direction startPrice endPrice)
                    startPrice endPrice,
                  startPrice := startPrice, endPrice := endPrice } ∧
      db2 = { db with
              predictions := db.predictions.map (fun p =>
                if p.id == predictionId then
                  applyEvaluation p
                    (isCorrectFor prediction.direction startPrice endPrice)
                    (computePointsAwarded
                      (getPointsForSlot prediction.duration prediction.slotNumber)
                      (isCorrectFor prediction.direction startPrice endPrice)
                      startPrice endPrice)
                    endPrice nowMs
                else p)
              userProfiles := applyProfileDelta db.userProfiles prediction.userId
                (isCorrectFor prediction.direction startPrice endPrice)
                (computePointsAwarded
                  (getPointsForSlot prediction.duration prediction.slotNumber)
                  (isCorrectFor prediction.direction startPrice endPrice)
                  startPrice endPrice) } := by
  unfold evaluatePrediction at h
  split at h
  next => exact (Except.noConfusion h)
  next prediction hfind =>
    split at h
    next => exact (Except.noConfusion h)
    next hstatus =>
      split at h
      next => exact (Except.noConfusion h)
      next asset hasset =>
        split at h
        next => exact (Except.noConfusion h)
        next endPrice hprice =>
          split at h
          next => exact (Except.noConfusion h)
          next startPrice hstart =>
            simp only [Except.ok.injEq, Prod.mk.injEq] at h
            obtain ⟨hdb2, hout⟩ := h
            exact ⟨prediction, asset, endPrice, startPrice, hfind,
              by simpa using hstatus, hasset, hprice, hstart,
              hout.symm, hdb2.symm⟩

lemma applyEvaluation_id (p : Prediction) (c : Bool) (pts : Int) (e : ℚ) (t : Int) :
    (applyEvaluation p c pts e t).id = p.id := rfl

lemma map_eval_find? (l : List Prediction) (predictionId : Nat)
    (f : Prediction → Prediction) (hid : ∀ p, (f p).id = p.id) :
    (l.map f).find? (fun p => p.id == predictionId)
      = (l.find? (fun p => p.id == predictionId)).map f := by
  induction l with
  | nil => simp
  | cons a l ih =>
      by_cases ha : (a.id == predictionId) = true
      · rw [List.map_cons, List.find?_cons_of_pos, List.find?_cons_of_pos]
        · simp
        · exact ha
        · rw [hid a]; exact ha
      · rw [List.map_cons, List.find?_cons_of_neg, List.find?_cons_of_neg]
        · exact ih
        · exact ha
        · rw [hid a]; exact ha

/-- C7: a prediction's status moves only one way, from `active` to the
terminal `evaluated`: evaluating a prediction whose status is not `active`
fails with the not-active error before any write, a successful evaluation
changes statuses only from `active` to `evaluated`, and re-running the
evaluation on the resulting store fails with the not-active error. -/
theorem evaluation_is_one_way_and_rejects_non_active
    (db : Database) (predictionId : Nat) (livePrice cachedPrice : Option ℚ)
    (nowMs : Int)
    (hids : (db.predictions.map (fun p => p.id)).Nodup) :
    (∀ p, db.predictions.find? (fun q => q.id == predictionId) = some p →
        p.status ≠ PredictionStatus.active →
        evaluatePrediction db predictionId livePrice cachedPrice nowMs
          = .error "Prediction is not active") ∧
    (∀ db2 outcome,
        evaluatePrediction db predictionId livePrice cachedPrice nowMs
          = .ok (db2, outcome) →
        List.Forall₂ (fun pOld pNew =>
            pNew.status = pOld.status ∨
            (pOld.status = PredictionStatus.active ∧
             pNew.status = PredictionStatus.evaluated))
          db.predictions db2.predictions ∧
        (∀ livePrice2 cachedPrice2 nowMs2,
            evaluatePrediction db2 predictionId livePrice2 cachedPrice2 nowMs2
              = .error "Prediction is not active")) := by
  constructor
  · intro p hfind hne
    unfold evaluatePrediction
    rw [hfind]
    simp [hne]
  · intro db2 outcome h
    obtain ⟨prediction, asset, endPrice, startPrice, hfind, hstatus, hasset,
      hprice, hstart, hout, hdb2⟩ := evaluatePrediction_ok_inv h
    have hidpres : ∀ p : Prediction,
        ((fun p => if p.id == predictionId then
            applyEvaluation p
              (isCorrectFor prediction.direction startPrice endPrice)
              (computePointsAwarded
                (getPointsForSlot prediction.duration prediction.slotNumber)
                (isCorrectFor prediction.direction startPrice endPrice)
                startPrice endPrice)
              endPrice nowMs
          else p) p).id = p.id := by
      intro p
      by_cases hp : (p.id == predictionId) = true
      · simp [hp, applyEvaluation_id]
      · simp [hp]
    have hpreds2 : db2.predictions = db.predictions.map (fun p =>
        if p.id == predictionId then
          applyEvaluation p
            (isCorrectFor prediction.direction startPrice endPrice)
            (computePointsAwarded
              (getPointsForSlot prediction.duration prediction.slotNumber)
              (isCorrectFor prediction.direction startPrice endPrice)
              startPrice endPrice)
            endPrice nowMs
        else p) := by
      rw [hdb2]
    have hpredmem : prediction ∈ db.predictions :=
      List.mem_of_find?_eq_some hfind
    have hpredid : (prediction.id == predictionId) = true := by
      have := List.find?_some hfind
      simpa using this
    constructor
    · rw [hpreds2]
      rw [List.forall₂_map_right_iff]
      rw [List.forall₂_same]
      intro p hp
      by_cases hcase : (p.id == predictionId) = true
      · have hpeq : p = prediction := by
          have hinj := List.inj_on_of_nodup_map hids
          exact hinj hp hpredmem (by
            have h1 : p.id = predictionId := by simpa using hcase
            have h2 : prediction.id = predictionId := by simpa using hpredid
            simp [h1, h2])
        right
        constructor
        · rw [hpeq]; exact hstatus
        · simp [hcase, applyEvaluation]
      · left
        simp [hcase]
    · intro livePrice2 cachedPrice2 nowMs2
      have hfind2 : db2.predictions.find? (fun p => p.id == predictionId)
          = some (applyEvaluation prediction
              (isCorrectFor prediction.direction startPrice endPrice)
              (computePointsAwarded
                (getPointsForSlot prediction.duration prediction.slotNumber)
                (isCorrectFor prediction.direction startPrice endPrice)
                startPrice endPrice)
              endPrice nowMs) := by
        rw [hpreds2, map_eval_find? _ _ _ hidpres, hfind]
        simp only [Option.map_some']
        rw [if_pos hpredid]
      unfold evaluatePrediction
      rw [hfind2]
      simp [applyEvaluation]

/-- Witness for C7 at the already-evaluated example prediction. -/
theorem evaluation_is_one_way_witness :
    evaluatePrediction sampleDbEvaluated 1 (some 101) none 950000
      = .error "Prediction is not active" :=
  (evaluation_is_one_way_and_rejects_non_active sampleDbEvaluated 1
      (some 101) none 950000 (by decide)).1
    sampleEvaluatedPrediction (by rfl) (by decide)

/-- C8: evaluation of `getCurrentSlot` at the failing input.  The function
anchors `startOfDay` with `new Date(now.getFullYear(), now.getMonth(),
now.getDate())`, the SERVER-LOCAL calendar day, so the same absolute
instant (epoch ms 0) yields slot 1 for duration `24h` on a server at UTC
and slot 5 on a server at UTC+12 — the slot number depends on the server's
local timezone, contradicting the fixed-reference-timezone claim the rest
of the slot service (`getSlotForDate`, pinned to `Europe/Berlin`) follows. -/
theorem getCurrentSlot_depends_on_server_timezone :
    getCurrentSlotLocal DurationKey.d24h 0 0 = 1 ∧
    getCurrentSlotLocal DurationKey.d24h 0 (12 * 3600000) = 5 ∧
    getCurrentSlotLocal DurationKey.d24h 0 0
      ≠ getCurrentSlotLocal DurationKey.d24h 0 (12 * 3600000) := by
  refine ⟨by decide, by decide, by decide⟩

lemma adminEvaluatePrediction_ok_inv {db : Database} {predictionId : Nat}
    {input : AdminEvaluateInput} {nowMs : Int} {db2 : Database}
    (h : adminEvaluatePrediction db predictionId input nowMs = .ok db2) :
    ∃ pred,
      db.predictions.find? (fun p => p.id == predictionId) = some pred ∧
      db2 = { db with
              predictions := db.predictions.map (fun p =>
                if p.id == predictionId then
                  { p with status := PredictionStatus.evaluated
                           result := input.result
                           pointsAwarded := some (input.pointsAwarded.getD 0)
                           priceStart := (truthyPrice input.priceStart).elim
                             pred.priceStart some
                           priceEnd := (truthyPrice input.priceEnd).elim
                             pred.priceEnd some
                           evaluatedAt := some nowMs }
                else p)
              userProfiles :=
                if input.pointsAwarded.isSome ∧
                    input.pointsAwarded ≠ pred.pointsAwarded then
                  db.userProfiles.map (fun pr =>
                    if pr.userId == pred.userId then
                      { pr with
                          monthlyScore := pr.monthlyScore +
                            (input.pointsAwarded.getD 0 - pred.pointsAwarded.getD 0)
                          totalScore := pr.totalScore +
                            (input.pointsAwarded.getD 0 - pred.pointsAwarded.getD 0)
                          totalPredictions := pr.totalPredictions + 1
                          correctPredictions := pr.correctPredictions +
                            (if input.result = PredictionResult.correct then 1 else 0) }
                    else pr)
                else db.userProfiles } := by
  unfold adminEvaluatePrediction at h
  split at h
  next => exact (Except.noConfusion h)
  next pred hfind =>
    simp only [Except.ok.injEq] at h
    exact ⟨pred, hfind, h.symm⟩

/-- C9 counterexample: the manual admin evaluation endpoint does mutate
`priceStart` after creation: with a truthy `priceStart` of 123 in the
request body it overwrites the stored start price 100. -/
theorem admin_evaluation_overwrites_priceStart :
    samplePrediction.priceStart = some 100 ∧
    adminEvaluatePrediction
      { users := [sampleUser], assets := [sampleAsset],
        predictions := [samplePrediction], userProfiles := [] } 1
      { result := PredictionResult.correct, pointsAwarded := some 10,
        priceStart := some 123, priceEnd := some 130 } 900000
      = .ok { users := [sampleUser], assets := [sampleAsset],
              predictions := [{ samplePrediction with
                  status := PredictionStatus.evaluated,
                  result := PredictionResult.correct,
                  pointsAwarded := some 10,
                  priceStart := some 123,
                  priceEnd := some 130,
                  evaluatedAt := some 900000 }],
              userProfiles := [] } := by
  exact ⟨rfl, by rfl⟩

/-- C9 (amended): the periodic evaluator (`evaluatePrediction`) leaves
`priceStart`, `direction`, `duration`, `slotNumber`, `slotStart`,
`slotEnd`, as well as `id`, `userId`, `assetId` and
`timestampExpiration`, unchanged on every row — it modifies only `status`,
`result`, `pointsAwarded`, `priceEnd` and `evaluatedAt`.  The manual admin
evaluation endpoint likewise leaves the identity and slot fields unchanged,
but it preserves `priceStart` only when the request body carries no truthy
`priceStart`; when the body supplies a truthy value the targeted row's
`priceStart` is overwritten with it. -/
theorem evaluation_frame_conditions :
    (∀ (db : Database) (predictionId : Nat) (livePrice cachedPrice : Option ℚ)
        (nowMs : Int) (db2 : Database) (outcome : EvaluationOutcome),
        evaluatePrediction db predictionId livePrice cachedPrice nowMs
          = .ok (db2, outcome) →
        List.Forall₂ (fun pOld pNew =>
            pNew.id = pOld.id ∧ pNew.userId = pOld.userId ∧
            pNew.assetId = pOld.assetId ∧ pNew.direction = pOld.direction ∧
            pNew.duration = pOld.duration ∧ pNew.slotNumber = pOld.slotNumber ∧
            pNew.slotStart = pOld.slotStart ∧ pNew.slotEnd = pOld.slotEnd ∧
            pNew.timestampExpiration = pOld.timestampExpiration ∧
            pNew.priceStart = pOld.priceStart)
          db.predictions db2.predictions) ∧
    (∀ (db : Database) (predictionId : Nat) (input : AdminEvaluateInput)
        (nowMs : Int) (db2 : Database),
        (db.predictions.map (fun p => p.id)).Nodup →
        adminEvaluatePrediction db predictionId input nowMs = .ok db2 →
        List.Forall₂ (fun pOld pNew =>
            pNew.id = pOld.id ∧ pNew.userId = pOld.userId ∧
            pNew.assetId = pOld.assetId ∧ pNew.direction = pOld.direction ∧
            pNew.duration = pOld.duration ∧ pNew.slotNumber = pOld.slotNumber ∧
            pNew.slotStart = pOld.slotStart ∧ pNew.slotEnd = pOld.slotEnd ∧
            pNew.timestampExpiration = pOld.timestampExpiration ∧
            (truthyPrice input.priceStart = none →
                pNew.priceStart = pOld.priceStart) ∧
            (∀ v, truthyPrice input.priceStart = some v → pOld.id = predictionId →
                pNew.priceStart = some v))
          db.predictions db2.predictions) := by
  constructor
  · intro db predictionId livePrice cachedPrice nowMs db2 outcome h
    obtain ⟨prediction, asset, endPrice, startPrice, hfind, hstatus, hasset,
      hprice, hstart, hout, hdb2⟩ := evaluatePrediction_ok_inv h
    have hpreds2 : db2.predictions = db.predictions.map (fun p =>
        if p.id == predictionId then
          applyEvaluation p
            (isCorrectFor prediction.direction startPrice endPrice)
            (computePointsAwarded
              (getPointsForSlot prediction.duration prediction.slotNumber)
              (isCorrectFor prediction.direction startPrice endPrice)
              startPrice endPrice)
            endPrice nowMs
        else p) := by
      rw [hdb2]
    rw [hpreds2, List.forall₂_map_right_iff, List.forall₂_same]
    intro p hp
    by_cases hcase : (p.id == predictionId) = true
    · simp [hcase, applyEvaluation]
    · simp [hcase]
  · intro db predictionId input nowMs db2 hids h
    obtain ⟨pred, hfind, hdb2⟩ := adminEvaluatePrediction_ok_inv h
    have hpredmem : pred ∈ db.predictions := List.mem_of_find?_eq_some hfind
    have hpredid : (pred.id == predictionId) = true := by
      have := List.find?_some hfind
      simpa using this
    have hpreds2 : db2.predictions = db.predictions.map (fun p =>
        if p.id == predictionId then
          { p with status := PredictionStatus.evaluated
                   result := input.result
                   pointsAwarded := some (input.pointsAwarded.getD 0)
                   priceStart := (truthyPrice input.priceStart).elim
                     pred.priceStart some
                   priceEnd := (truthyPrice input.priceEnd).elim
                     pred.priceEnd some
                   evaluatedAt := some nowMs }
        else p) := by
      rw [hdb2]
    rw [hpreds2, List.forall₂_map_right_iff, List.forall₂_same]
    intro p hp
    by_cases hcase : (p.id == predictionId) = true
    · have hpeq : p = pred := by
        have hinj := List.inj_on_of_nodup_map hids
        exact hinj hp hpredmem (by
          have h1 : p.id = predictionId := by simpa using hcase
          have h2 : pred.id = predictionId := by simpa using hpredid
          simp [h1, h2])
      refine ⟨by simp [hcase], by simp [hcase], by simp [hcase], by simp [hcase],
        by simp [hcase], by simp [hcase], by simp [hcase], by simp [hcase],
        by simp [hcase], ?_, ?_⟩
      · intro hnone
        rw [if_pos hcase]
        simp only [hnone, Option.elim_none]
        rw [hpeq]
      · intro v hv _
        rw [if_pos hcase]
        simp only [hv, Option.elim_some]
    · refine ⟨by simp [hcase], by simp [hcase], by simp [hcase], by simp [hcase],
        by simp [hcase], by simp [hcase], by simp [hcase], by simp [hcase],
        by simp [hcase], ?_, ?_⟩
      · intro _
        simp [hcase]
      · intro v _ hpid
        exact absurd (by simpa using hpid) (by simpa using hcase)

/-- Witness for C9 (amended): the admin frame conjunct applied to the
concrete overwrite scenario. -/
theorem evaluation_frame_conditions_witness :
    List.Forall₂ (fun pOld pNew =>
        pNew.id = pOld.id ∧ pNew.userId = pOld.userId ∧
        pNew.assetId = pOld.assetId ∧ pNew.direction = pOld.direction ∧
        pNew.duration = pOld.duration ∧ pNew.slotNumber = pOld.slotNumber ∧
        pNew.slotStart = pOld.slotStart ∧ pNew.slotEnd = pOld.slotEnd ∧
        pNew.timestampExpiration = pOld.timestampExpiration ∧
        (truthyPrice (some (123 : ℚ)) = none →
            pNew.priceStart = pOld.priceStart) ∧
        (∀ v, truthyPrice (some (123 : ℚ)) = some v → pOld.id = 1 →
            pNew.priceStart = some v))
      [samplePrediction]
      [{ samplePrediction with
          status := PredictionStatus.evaluated,
          result := PredictionResult.correct,
          pointsAwarded := some 10,
          priceStart := some 123,
          priceEnd := some 130,
          evaluatedAt := some 900000 }] :=
  evaluation_frame_conditions.2
    { users := [sampleUser], assets := [sampleAsset],
      predictions := [samplePrediction], userProfiles := [] } 1
    { result := PredictionResult.correct, pointsAwarded := some 10,
      priceStart := some 123, priceEnd := some 130 } 900000
    { users := [sampleUser], assets := [sampleAsset],
      predictions := [{ samplePrediction with
          status := PredictionStatus.evaluated,
          result := PredictionResult.correct,
          pointsAwarded := some 10,
          priceStart := some 123,
          priceEnd := some 130,
          evaluatedAt := some 900000 }],
      userProfiles := [] }
    (by decide) (by rfl)

/-- C10: when no user-profile aggregate row exists for the prediction's
owner, `evaluatePrediction` still completes successfully: it marks the
prediction `evaluated`, persists `result`, `pointsAwarded`, `priceEnd` and
`evaluatedAt`, returns the evaluation outcome, and performs no aggregate
update at all — the missing-profile case is skipped without an error. -/
theorem evaluation_skips_missing_profile
    (db : Database) (predictionId : Nat) (livePrice cachedPrice : Option ℚ)
    (nowMs : Int) (prediction : Prediction) (asset : AssetRow)
    (endPrice startPrice : ℚ)
    (hfind : db.predictions.find? (fun p => p.id == predictionId) = some prediction)
    (hactive : prediction.status = PredictionStatus.active)
    (hasset : db.assets.find? (fun a => a.id == prediction.assetId) = some asset)
    (hprice : firstTruthyPrice livePrice cachedPrice = some endPrice)
    (hstart : prediction.priceStart = some startPrice)
    (hnoprofile : db.userProfiles.find?
      (fun pr => pr.userId == prediction.userId) = none) :
    ∃ db2 outcome,
      evaluatePrediction db predictionId livePrice cachedPrice nowMs
        = .ok (db2, outcome) ∧
      db2.userProfiles = db.userProfiles ∧
      (∀ q ∈ db2.predictions, q.id = predictionId →
          q.status = PredictionStatus.evaluated ∧
          q.result = (if outcome.isCorrect then PredictionResult.correct
                      else PredictionResult.incorrect) ∧
          q.pointsAwarded = some outcome.pointsAwarded ∧
          q.priceEnd = some outcome.endPrice ∧
          q.evaluatedAt = some nowMs) ∧
      outcome.predictionId = predictionId ∧
      outcome.startPrice = startPrice ∧
      outcome.endPrice = endPrice := by
  have heval : evaluatePrediction db predictionId livePrice cachedPrice nowMs
      = .ok ({ db with
                predictions := db.predictions.map (fun p =>
                  if p.id == predictionId then
                    applyEvaluation p
                      (isCorrectFor prediction.direction startPrice endPrice)
                      (computePointsAwarded
                        (getPointsForSlot prediction.duration prediction.slotNumber)
                        (isCorrectFor prediction.direction startPrice endPrice)
                        startPrice endPrice)
                      endPrice nowMs
                  else p)
                userProfiles := applyProfileDelta db.userProfiles
                  prediction.userId
                  (isCorrectFor prediction.direction startPrice endPrice)
                  (computePointsAwarded
                    (getPointsForSlot prediction.duration prediction.slotNumber)
                    (isCorrectFor prediction.direction startPrice endPrice)
                    startPrice endPrice) },
             { predictionId := predictionId
               isCorrect := isCorrectFor prediction.direction startPrice endPrice
               pointsAwarded := computePointsAwarded
                 (getPointsForSlot prediction.duration prediction.slotNumber)
                 (isCorrectFor prediction.direction startPrice endPrice)
                 startPrice endPrice
               startPrice := startPrice
               endPrice := endPrice }) := by
    unfold evaluatePrediction
    rw [hfind]
    simp only [hactive, ne_eq, not_true_eq_false, if_false, hasset, hprice, hstart]
  have hprofiles : applyProfileDelta db.userProfiles prediction.userId
      (isCorrectFor prediction.direction startPrice endPrice)
      (computePointsAwarded
        (getPointsForSlot prediction.duration prediction.slotNumber)
        (isCorrectFor prediction.direction startPrice endPrice)
        startPrice endPrice) = db.userProfiles := by
    unfold applyProfileDelta
    rw [hnoprofile]
  refine ⟨_, _, heval, hprofiles, ?_, rfl, rfl, rfl⟩
  intro q hq hqid
  obtain ⟨p, hpmem, hpq⟩ := List.mem_map.mp hq
  by_cases hcase : (p.id == predictionId) = true
  · rw [if_pos hcase] at hpq
    rw [← hpq]
    exact ⟨rfl, rfl, rfl, rfl, rfl⟩
  · rw [if_neg hcase] at hpq
    exact absurd (show (p.id == predictionId) = true by rw [hpq, hqid]; simp)
      (by simpa using hcase)

/-- Witness for C10 at a store whose only prediction belongs to a user with
no profile row. -/
theorem evaluation_skips_missing_profile_witness :
    ∃ db2 outcome,
      evaluatePrediction
        { users := [sampleUser], assets := [sampleAsset],
          predictions := [samplePrediction], userProfiles := [] } 1
        (some 101) none 950000
        = .ok (db2, outcome) ∧
      db2.userProfiles =
        ({ users := [sampleUser], assets := [sampleAsset],
           predictions := [samplePrediction],
           userProfiles := [] } : Database).userProfiles ∧
      (∀ q ∈ db2.predictions, q.id = 1 →
          q.status = PredictionStatus.evaluated ∧
          q.result = (if outcome.isCorrect then PredictionResult.correct
                      else PredictionResult.incorrect) ∧
          q.pointsAwarded = some outcome.pointsAwarded ∧
          q.priceEnd = some outcome.endPrice ∧
          q.evaluatedAt = some 950000) ∧
      outcome.predictionId = 1 ∧
      outcome.startPrice = 100 ∧
      outcome.endPrice = 101 :=
  evaluation_skips_missing_profile
    { users := [sampleUser], assets := [sampleAsset],
      predictions := [samplePrediction], userProfiles := [] } 1
    (some 101) none 950000 samplePrediction sampleAsset 101 100
    (by rfl) (by rfl) (by rfl) (by rfl) (by rfl) (by rfl)

end TrendFiver
